import Mathlib

/-!
# Verification of the iproj/raft HTTP transport and generated message types

Shallow embedding of the Go sources:

* `http_transporter.go` — the HTTP transporter: outbound RPC sends,
  the redirect helper, and the incoming request handlers.
* `protobuf/request_vote_request.pb.go` and
  `snapshot_recovery_request.pb.go` — the generated protobuf message
  structs and their nil-safe getters.
* `examples/raftd/server/server.go` — the demonstration server's
  constructor, in particular the persistent `name` file.

Go pointers that may be nil are modelled as `Option`; byte strings as
`List Nat`; maps as association lists; results of calls into external
collaborators (the HTTP client, the raft `Server` interface, `json`
encoding) are passed in explicitly as environment parameters, so each
embedded function is a pure function of its inputs and that environment.
A Go `panic` is modelled as an explicit outcome constructor.
-/

namespace Raft

/-! ## Protobuf wire format

The wire format used by the RPC messages (spec §6): unsigned integers are
base-128 varints, strings and byte blobs are length-prefixed, and each
field record is `varint(fieldNumber « 3 | wireType)` followed by the
payload.  The decoding logic itself lives in the `golang/protobuf`
library, outside this repository's sources; it is modelled here from the
spec's description of the wire format, restricted to the two wire types
the spec uses (0 = varint, 2 = length-delimited). -/
/-- Helper for `encVarint`, structurally recursive on a fuel bound so
that the encoder reduces definitionally; any fuel above the value
suffices. -/
def encVarintFuel : Nat → Nat → List Nat
  | 0, n => [n % 128]
  | fuel + 1, n =>
    if n < 128 then [n] else (n % 128 + 128) :: encVarintFuel fuel (n / 128)

/-- Base-128 varint encoding of a natural number, least-significant
group first, continuation bit 0x80 on every byte but the last. -/
def encVarint (n : Nat) : List Nat := encVarintFuel (n + 1) n

/-- Base-128 varint decoding: returns the value and the remaining bytes. -/
def decVarint : List Nat → Option (Nat × List Nat)
  | [] => none
  | b :: bs =>
    if b < 128 then some (b, bs)
    else
      match decVarint bs with
      | none => none
      | some (v, rest) => some (v * 128 + (b - 128), rest)

/-- A single protobuf field record: a field number together with either a
varint payload (wire type 0) or a length-delimited payload (wire type 2). -/
inductive FieldVal : Type
  | vint (n : Nat)
  | blob (bs : List Nat)
deriving DecidableEq, Repr

structure FieldRec where
  num : Nat
  val : FieldVal
deriving DecidableEq, Repr

def FieldVal.wireType : FieldVal → Nat
  | .vint _ => 0
  | .blob _ => 2

/-- Wire encoding of one field record. -/
def encRec (r : FieldRec) : List Nat :=
  encVarint (r.num * 8 + r.val.wireType) ++
    (match r.val with
     | .vint n => encVarint n
     | .blob bs => encVarint bs.length ++ bs)

/-- Wire encoding of a sequence of field records. -/
def encRecs (rs : List FieldRec) : List Nat :=
  (rs.map encRec).flatten

/-- A record is well-formed when its field number is positive (protobuf
rejects field number 0). -/
def FieldRec.wf (r : FieldRec) : Prop := 0 < r.num

instance (r : FieldRec) : Decidable r.wf := by
  unfold FieldRec.wf; infer_instance

/-- The generic record-consuming decode loop: reads one field record at a
time from the byte stream and folds it into the message state via
`apply` (which handles both known and unknown field numbers; it may fail,
e.g. when a nested message payload is malformed).  `fuel` bounds the
number of records; callers pass the byte length, which always suffices
since every record occupies at least one byte. -/
def runRecs {σ : Type} (apply : FieldRec → σ → Option σ) :
    Nat → List Nat → σ → Option σ
  | _, [], st => some st
  | 0, _ :: _, _ => none
  | fuel + 1, bs, st =>
    match decVarint bs with
    | none => none
    | some (key, r1) =>
      if key / 8 = 0 then none
      else if key % 8 = 0 then
        match decVarint r1 with
        | none => none
        | some (v, r2) =>
          match apply ⟨key / 8, .vint v⟩ st with
          | none => none
          | some st' => runRecs apply fuel r2 st'
      else if key % 8 = 2 then
        match decVarint r1 with
        | none => none
        | some (len, r2) =>
          if len ≤ r2.length then
            match apply ⟨key / 8, .blob (r2.take len)⟩ st with
            | none => none
            | some st' => runRecs apply fuel (r2.drop len) st'
          else none
      else none

/-- Reference fold: what the decode loop computes, record by record. -/
def foldRecs {σ : Type} (apply : FieldRec → σ → Option σ) :
    List FieldRec → σ → Option σ
  | [], st => some st
  | r :: rs, st =>
    match apply r st with
    | none => none
    | some st' => foldRecs apply rs st'

/-! ## Generated message types

Embeddings of the generated Go structs in
`protobuf/request_vote_request.pb.go` and
`snapshot_recovery_request.pb.go`.  Optional (pointer-typed) Go fields
become `Option`; Go strings on the wire are byte strings, modelled as
`List Nat` (the empty string `""` is `[]`). -/
structure RequestVoteRequest where
  Term : Option Nat
  LastLogIndex : Option Nat
  LastLogTerm : Option Nat
  CandidateName : Option (List Nat)
  XXX_unrecognized : List Nat
deriving DecidableEq, Repr

structure SnapshotRecoveryRequest_Peer where
  Name : Option (List Nat)
  ConnectionString : Option (List Nat)
  XXX_unrecognized : List Nat
deriving DecidableEq, Repr

structure SnapshotRecoveryRequest where
  LeaderName : Option (List Nat)
  LastIndex : Option Nat
  LastTerm : Option Nat
  Peers : List SnapshotRecoveryRequest_Peer
  State : Option (List Nat)
  XXX_unrecognized : List Nat
deriving DecidableEq, Repr

/-! ### Nil-safe getters

Each Go getter is `func (m *T) GetX() τ { if m != nil && m.X != nil
{ return *m.X }; return zero }`; the nil receiver is the `none` case of
the `Option` argument. -/
def RequestVoteRequest.GetTerm : Option RequestVoteRequest → Nat
  | some m => match m.Term with | some v => v | none => 0
  | none => 0

def RequestVoteRequest.GetLastLogIndex : Option RequestVoteRequest → Nat
  | some m => match m.LastLogIndex with | some v => v | none => 0
  | none => 0

def RequestVoteRequest.GetLastLogTerm : Option RequestVoteRequest → Nat
  | some m => match m.LastLogTerm with | some v => v | none => 0
  | none => 0

def RequestVoteRequest.GetCandidateName : Option RequestVoteRequest → List Nat
  | some m => match m.CandidateName with | some v => v | none => []
  | none => []

def SnapshotRecoveryRequest.GetLeaderName : Option SnapshotRecoveryRequest → List Nat
  | some m => match m.LeaderName with | some v => v | none => []
  | none => []

def SnapshotRecoveryRequest.GetLastIndex : Option SnapshotRecoveryRequest → Nat
  | some m => match m.LastIndex with | some v => v | none => 0
  | none => 0

def SnapshotRecoveryRequest.GetLastTerm : Option SnapshotRecoveryRequest → Nat
  | some m => match m.LastTerm with | some v => v | none => 0
  | none => 0

def SnapshotRecoveryRequest_Peer.GetName : Option SnapshotRecoveryRequest_Peer → List Nat
  | some m => match m.Name with | some v => v | none => []
  | none => []

def SnapshotRecoveryRequest_Peer.GetConnectionString : Option SnapshotRecoveryRequest_Peer → List Nat
  | some m => match m.ConnectionString with | some v => v | none => []
  | none => []

/-! ### Decoding

Modelled from the spec: the decode logic for these messages lives in the
`golang/protobuf` runtime (outside this repository's sources).  Spec §6:
"All integer fields are unsigned varint; strings and byte blobs are
length-prefixed.  Unknown fields on decode are ignored, preserving
forward compatibility."  A field record whose number is outside the
message's schema is retained opaquely in `XXX_unrecognized`; a known
field number with the wrong wire type is a decode error. -/
def RequestVoteRequest.zero : RequestVoteRequest :=
  ⟨none, none, none, none, []⟩

def RequestVoteRequest.applyField (r : FieldRec) (m : RequestVoteRequest) :
    Option RequestVoteRequest :=
  if r.num = 1 then
    match r.val with
    | .vint v => some { m with Term := some v }
    | _ => none
  else if r.num = 2 then
    match r.val with
    | .vint v => some { m with LastLogIndex := some v }
    | _ => none
  else if r.num = 3 then
    match r.val with
    | .vint v => some { m with LastLogTerm := some v }
    | _ => none
  else if r.num = 4 then
    match r.val with
    | .blob b => some { m with CandidateName := some b }
    | _ => none
  else
    some { m with XXX_unrecognized := m.XXX_unrecognized ++ encRec r }

def RequestVoteRequest.Decode (bs : List Nat) : Option RequestVoteRequest :=
  runRecs RequestVoteRequest.applyField bs.length bs RequestVoteRequest.zero

def SnapshotRecoveryRequest_Peer.zero : SnapshotRecoveryRequest_Peer :=
  ⟨none, none, []⟩

def SnapshotRecoveryRequest_Peer.applyField (r : FieldRec)
    (m : SnapshotRecoveryRequest_Peer) : Option SnapshotRecoveryRequest_Peer :=
  if r.num = 1 then
    match r.val with
    | .blob b => some { m with Name := some b }
    | _ => none
  else if r.num = 2 then
    match r.val with
    | .blob b => some { m with ConnectionString := some b }
    | _ => none
  else
    some { m with XXX_unrecognized := m.XXX_unrecognized ++ encRec r }

def SnapshotRecoveryRequest_Peer.Decode (bs : List Nat) :
    Option SnapshotRecoveryRequest_Peer :=
  runRecs SnapshotRecoveryRequest_Peer.applyField bs.length bs
    SnapshotRecoveryRequest_Peer.zero

def SnapshotRecoveryRequest.zero : SnapshotRecoveryRequest :=
  ⟨none, none, none, [], none, []⟩

def SnapshotRecoveryRequest.applyField (r : FieldRec)
    (m : SnapshotRecoveryRequest) : Option SnapshotRecoveryRequest :=
  if r.num = 1 then
    match r.val with
    | .blob b => some { m with LeaderName := some b }
    | _ => none
  else if r.num = 2 then
    match r.val with
    | .vint v => some { m with LastIndex := some v }
    | _ => none
  else if r.num = 3 then
    match r.val with
    | .vint v => some { m with LastTerm := some v }
    | _ => none
  else if r.num = 4 then
    match r.val with
    | .blob b =>
      match SnapshotRecoveryRequest_Peer.Decode b with
      | some p => some { m with Peers := m.Peers ++ [p] }
      | none => none
    | _ => none
  else if r.num = 5 then
    match r.val with
    | .blob b => some { m with State := some b }
    | _ => none
  else
    some { m with XXX_unrecognized := m.XXX_unrecognized ++ encRec r }

def SnapshotRecoveryRequest.Decode (bs : List Nat) :
    Option SnapshotRecoveryRequest :=
  runRecs SnapshotRecoveryRequest.applyField bs.length bs
    SnapshotRecoveryRequest.zero

/-! ### Unknown-field invariance -/
def FieldVal.isVint : FieldVal → Bool
  | .vint _ => true
  | .blob _ => false

def FieldVal.isBlob : FieldVal → Bool
  | .vint _ => false
  | .blob _ => true

/-- The field numbers of `RequestVoteRequest`'s schema. -/
def RequestVoteRequest.knownField (r : FieldRec) : Bool :=
  r.num == 1 || r.num == 2 || r.num == 3 || r.num == 4

/-- A record that `RequestVoteRequest` decoding accepts: positive field
number, and schema-conformant wire type when the number is known. -/
def RequestVoteRequest.recWf (r : FieldRec) : Prop :=
  0 < r.num ∧
  ((r.num = 1 ∨ r.num = 2 ∨ r.num = 3) → r.val.isVint = true) ∧
  (r.num = 4 → r.val.isBlob = true)

instance (r : FieldRec) : Decidable (RequestVoteRequest.recWf r) := by
  unfold RequestVoteRequest.recWf; infer_instance

def RequestVoteRequest.proj (m : RequestVoteRequest) :
    Option Nat × Option Nat × Option Nat × Option (List Nat) :=
  (m.Term, m.LastLogIndex, m.LastLogTerm, m.CandidateName)

/-- The field numbers of `SnapshotRecoveryRequest`'s schema. -/
def SnapshotRecoveryRequest.knownField (r : FieldRec) : Bool :=
  r.num == 1 || r.num == 2 || r.num == 3 || r.num == 4 || r.num == 5

/-- Schema conformance for `SnapshotRecoveryRequest` records; a `Peers`
record (field 4) must additionally carry a decodable nested message. -/
def SnapshotRecoveryRequest.recWf (r : FieldRec) : Prop :=
  0 < r.num ∧
  ((r.num = 2 ∨ r.num = 3) → r.val.isVint = true) ∧
  ((r.num = 1 ∨ r.num = 5) → r.val.isBlob = true) ∧
  (r.num = 4 →
    (match r.val with
     | .blob b => (SnapshotRecoveryRequest_Peer.Decode b).isSome
     | .vint _ => false) = true)

instance (r : FieldRec) : Decidable (SnapshotRecoveryRequest.recWf r) := by
  unfold SnapshotRecoveryRequest.recWf; infer_instance

def SnapshotRecoveryRequest.proj (m : SnapshotRecoveryRequest) :
    Option (List Nat) × Option Nat × Option Nat ×
      List SnapshotRecoveryRequest_Peer × Option (List Nat) :=
  (m.LeaderName, m.LastIndex, m.LastTerm, m.Peers, m.State)

/-! ## HTTP transporter (`http_transporter.go`)

Results of calls into the Go standard library and the raft `Server`
interface are supplied as explicit environment values.  A Go `panic` is
the `Except.error` / `SendResult.panicked` outcome. -/
/-- Modelled from the Go standard library: `net/url.Parse` fails on a URL
containing an ASCII control character.  Only this failure criterion is
needed by the theorems below; the other parse-error cases of `net/url`
are not modelled. -/
def urlParseOk (s : String) : Bool :=
  s.data.all (fun c => 32 ≤ c.toNat && c.toNat != 127)

/-- `joinPath` from `http_transporter.go`: parses the connection string
with `url.Parse` and panics (`Except.error`) when parsing fails;
otherwise joins the path onto the URL.  The joined string's exact shape
(`path.Join` cleaning, `URL.String` reassembly) is not relied upon by any
theorem and is modelled as plain concatenation. -/
def joinPath (connectionString thePath : String) : Except String String :=
  if urlParseOk connectionString then .ok (connectionString ++ thePath)
  else .error "parse error"

/-- The `http.Transport` configuration the transporter installs. -/
structure HttpTransport where
  DisableKeepAlives : Bool
  ResponseHeaderTimeout : Nat
deriving DecidableEq, Repr

structure HTTPTransporter where
  DisableKeepAlives : Bool
  prefixPath : String
  appendEntriesPath : String
  requestVotePath : String
  snapshotPath : String
  snapshotRecoveryPath : String
  redirectPath : String
  peerJoinPath : String
  peerRemovePath : String
  httpClientTransport : HttpTransport
  Transport : HttpTransport
deriving DecidableEq, Repr

/-- `NewHTTPTransporter` from `http_transporter.go`: builds the route
paths with `joinPath` (so it panics when the given path fragment fails
`url.Parse`), shares one `http.Transport` between the `Transport` field
and the client, and installs the given timeout as that transport's
`ResponseHeaderTimeout`. -/
def NewHTTPTransporter (p : String) (timeout : Nat) :
    Except String HTTPTransporter := do
  let aep ← joinPath p "/appendEntries"
  let rvp ← joinPath p "/requestVote"
  let sp ← joinPath p "/snapshot"
  let srp ← joinPath p "/snapshotRecovery"
  let rdp ← joinPath p "/redirect"
  let pjp ← joinPath p "/join"
  let prp ← joinPath p "/remove"
  let tr : HttpTransport := ⟨false, timeout⟩
  return { DisableKeepAlives := false
           prefixPath := p
           appendEntriesPath := aep
           requestVotePath := rvp
           snapshotPath := sp
           snapshotRecoveryPath := srp
           redirectPath := rdp
           peerJoinPath := pjp
           peerRemovePath := prp
           httpClientTransport := tr
           Transport := tr }

/-- The peer of the server-side `Peer` structure, as the transporter sees
it.  Modelled from the spec: Peer = (Name, ConnectionString, …); the
transporter reads only `ConnectionString`. -/
structure Peer where
  Name : String
  ConnectionString : String
deriving DecidableEq, Repr

/-! ### RPC message types used by the transporter

The protobuf sources for these are not under `src/`; modelled from the
spec §6 schemas. -/
/-- Modelled from the spec: `AppendEntriesRequest{ Term, PrevLogIndex,
PrevLogTerm, CommitIndex, LeaderName, Entries[] }`. -/
structure ProtoLogEntry where
  Index : Nat
  Term : Nat
  CommandName : String
  Command : List Nat
deriving DecidableEq, Repr

structure AppendEntriesRequest where
  Term : Nat
  PrevLogIndex : Nat
  PrevLogTerm : Nat
  CommitIndex : Nat
  LeaderName : String
  Entries : List ProtoLogEntry
deriving DecidableEq, Repr

/-- Modelled from the spec: `AppendEntriesResponse{ Term, Index,
CommitIndex, Success }`. -/
structure AppendEntriesResponse where
  Term : Nat
  Index : Nat
  CommitIndex : Nat
  Success : Bool
deriving DecidableEq, Repr

/-- Modelled from the spec: `RequestVoteResponse{ Term, VoteGranted }`. -/
structure RequestVoteResponse where
  Term : Nat
  VoteGranted : Bool
deriving DecidableEq, Repr

/-- Modelled from the spec: `SnapshotRequest{ LeaderName, LastIndex,
LastTerm }`. -/
structure SnapshotRequest where
  LeaderName : String
  LastIndex : Nat
  LastTerm : Nat
deriving DecidableEq, Repr

/-- Modelled from the spec: `SnapshotResponse{ Success }`. -/
structure SnapshotResponse where
  Success : Bool
deriving DecidableEq, Repr

/-- Modelled from the spec: `SnapshotRecoveryResponse{ Term, Success,
CommitIndex }`. -/
structure SnapshotRecoveryResponse where
  Term : Nat
  Success : Bool
  CommitIndex : Nat
deriving DecidableEq, Repr

/-! ### Outbound sends -/
/-- The two kinds of error `resp.Decode` can report that the sends
distinguish: `io.EOF` versus anything else. -/
inductive DecErr : Type
  | eof
  | other
deriving DecidableEq, Repr

/-- Environment of one outbound send: the results of the calls the send
makes into the encoder, the HTTP client and the decoder. -/
structure RpcEnv (ρ : Type) where
  /-- `req.Encode(&b)` returned no error. -/
  encodeOk : Bool
  /-- `httpResp != nil` after `httpClient.Post`. -/
  postRespPresent : Bool
  /-- the `err` returned by `httpClient.Post`. -/
  postErr : Option String
  /-- the response value after `resp.Decode(httpResp.Body)` ran. -/
  decoded : ρ
  /-- the error reported by `resp.Decode`, if any. -/
  decErr : Option DecErr

/-- Outcome of an outbound send: a Go `panic` or a returned pointer
(`none` = the nil "unreachable" sentinel). -/
inductive SendResult (ρ : Type) : Type
  | panicked
  | returned (r : Option ρ)
deriving DecidableEq

/-- The exact disjunction of conditions under which a send returns the
nil sentinel: encoding failed, the POST erred or yielded no response, or
decoding failed with an error other than `io.EOF`. -/
def sendFails {ρ : Type} (env : RpcEnv ρ) : Prop :=
  env.encodeOk = false ∨ env.postRespPresent = false ∨
    env.postErr.isSome = true ∨ env.decErr = some DecErr.other

instance {ρ : Type} (env : RpcEnv ρ) : Decidable (sendFails env) := by
  unfold sendFails; infer_instance

/-- `SendAppendEntriesRequest`: encode (nil on error), `joinPath` (panics
on a bad connection string), POST (nil when the response is missing or an
error occurred), decode (nil on an error other than `io.EOF`). -/
def SendAppendEntriesRequest (t : HTTPTransporter) (peer : Peer)
    (env : RpcEnv AppendEntriesResponse) : SendResult AppendEntriesResponse :=
  if env.encodeOk = false then .returned none
  else
    match joinPath peer.ConnectionString t.appendEntriesPath with
    | .error _ => .panicked
    | .ok _ =>
      if env.postRespPresent = false ∨ env.postErr.isSome then .returned none
      else
        match env.decErr with
        | some .other => .returned none
        | _ => .returned (some env.decoded)

/-- `SendVoteRequest`: like `SendAppendEntriesRequest`, but the URL is
built with `fmt.Sprintf`, so no panic is possible. -/
def SendVoteRequest (t : HTTPTransporter) (peer : Peer)
    (env : RpcEnv RequestVoteResponse) : SendResult RequestVoteResponse :=
  if env.encodeOk = false then .returned none
  else
    let _url := peer.ConnectionString ++ t.requestVotePath
    if env.postRespPresent = false ∨ env.postErr.isSome then .returned none
    else
      match env.decErr with
      | some .other => .returned none
      | _ => .returned (some env.decoded)

def SendSnapshotRequest (t : HTTPTransporter) (peer : Peer)
    (env : RpcEnv SnapshotResponse) : SendResult SnapshotResponse :=
  if env.encodeOk = false then .returned none
  else
    match joinPath peer.ConnectionString t.snapshotPath with
    | .error _ => .panicked
    | .ok _ =>
      if env.postRespPresent = false ∨ env.postErr.isSome then .returned none
      else
        match env.decErr with
        | some .other => .returned none
        | _ => .returned (some env.decoded)

def SendSnapshotRecoveryRequest (t : HTTPTransporter) (peer : Peer)
    (env : RpcEnv SnapshotRecoveryResponse) : SendResult SnapshotRecoveryResponse :=
  if env.encodeOk = false then .returned none
  else
    match joinPath peer.ConnectionString t.snapshotRecoveryPath with
    | .error _ => .panicked
    | .ok _ =>
      if env.postRespPresent = false ∨ env.postErr.isSome then .returned none
      else
        match env.decErr with
        | some .other => .returned none
        | _ => .returned (some env.decoded)

/-! ### The raft `Server` interface seen by the transporter

The transporter's handlers call into a `Server` through its interface.
The server implementation is not under `src/`; its observable behavior
is modelled as explicit fields (accessor values and per-method response
functions), exactly the shape of the Go interface. -/
/-- Modelled from the spec: the built-in join command carries the peer's
Name and ConnectionString. -/
structure DefaultJoinCommand where
  Name : String
  ConnectionString : String
deriving DecidableEq, Repr

/-- Modelled from the spec: the built-in leave command carries the peer's
Name. -/
structure DefaultLeaveCommand where
  Name : String
deriving DecidableEq, Repr

structure ServerModel where
  name : String
  /-- `CurrentTerm` of the receiving server (spec: "the local term"). -/
  term : Nat
  leader : String
  /-- `server.Peers()`: the map from peer name to peer. -/
  peers : List (String × Peer)
  maxPeerCount : Nat
  appendEntries : AppendEntriesRequest → Option AppendEntriesResponse
  requestVote : RequestVoteRequest → Option RequestVoteResponse
  requestSnapshot : SnapshotRequest → Option SnapshotResponse
  snapshotRecoveryRequest : SnapshotRecoveryRequest → Option SnapshotRecoveryResponse
  /-- result of `server.Do` on a join command. -/
  doJoin : DefaultJoinCommand → Except String Unit
  /-- result of `server.Do` on a leave command. -/
  doLeave : DefaultLeaveCommand → Except String Unit

/-! ### Redirect -/
/-- Environment of `Redirect`: the `json.Marshal` result (none = error)
and the outcome of `http.Post` (error string, or the response status). -/
structure RedirectEnv where
  marshal : Option (List Nat)
  postResult : Except String Nat

/-- What `Redirect` did: the error it returned (`none` = success) and
the body bytes it POSTed (`none` = no POST was attempted). -/
structure RedirectOut where
  err : Option String
  posted : Option (List Nat)
deriving DecidableEq, Repr

/-- `Redirect` from `http_transporter.go`: marshals the command *ignoring
the error*, looks the current leader up in the peer map, POSTs the bytes
to the leader's redirect path, and fails unless the status is 200. -/
def Redirect (t : HTTPTransporter) (server : ServerModel) (env : RedirectEnv) :
    RedirectOut :=
  let bytez := env.marshal.getD []
  match server.peers.lookup server.leader with
  | none => ⟨some ("Leader: " ++ server.leader ++ " has not connectAddr"), none⟩
  | some peer =>
    let url := peer.ConnectionString ++ t.redirectPath
    match env.postResult with
    | .error e => ⟨some ("Post " ++ url ++ " failed: " ++ e), some bytez⟩
    | .ok code =>
      if code ≠ 200 then ⟨some ("Invalid http code: " ++ toString code), some bytez⟩
      else ⟨none, some bytez⟩

/-! ### Incoming handlers -/
/-- What an RPC handler wrote to the `http.ResponseWriter`: an HTTP error
with a status code and message, or an encoded protocol response. -/
inductive RpcHandlerOut (ρ : Type) : Type
  | httpError (code : Nat) (msg : String)
  | response (resp : ρ)
deriving DecidableEq, Repr

/-- What a membership (join/remove) handler did: an HTTP error, or a
silent 200. -/
inductive MemberHandlerOut : Type
  | httpError (code : Nat) (msg : String)
  | done
deriving DecidableEq, Repr

/-- `appendEntriesHandler`: a body that fails to decode is answered with
a bare HTTP 400 and an empty message; otherwise the server's response is
encoded back (500 on a nil response or an encoding error). -/
def appendEntriesHandler (server : ServerModel)
    (body : Option AppendEntriesRequest) (encodeOk : Bool) :
    RpcHandlerOut AppendEntriesResponse :=
  match body with
  | none => .httpError 400 ""
  | some req =>
    match server.appendEntries req with
    | none => .httpError 500 "Failed creating response."
    | some resp => if encodeOk then .response resp else .httpError 500 ""

def requestVoteHandler (server : ServerModel)
    (body : Option RequestVoteRequest) (encodeOk : Bool) :
    RpcHandlerOut RequestVoteResponse :=
  match body with
  | none => .httpError 400 ""
  | some req =>
    match server.requestVote req with
    | none => .httpError 500 "Failed creating response."
    | some resp => if encodeOk then .response resp else .httpError 500 ""

def snapshotHandler (server : ServerModel)
    (body : Option SnapshotRequest) (encodeOk : Bool) :
    RpcHandlerOut SnapshotResponse :=
  match body with
  | none => .httpError 400 ""
  | some req =>
    match server.requestSnapshot req with
    | none => .httpError 500 "Failed creating response."
    | some resp => if encodeOk then .response resp else .httpError 500 ""

def snapshotRecoveryHandler (server : ServerModel)
    (body : Option SnapshotRecoveryRequest) (encodeOk : Bool) :
    RpcHandlerOut SnapshotRecoveryResponse :=
  match body with
  | none => .httpError 400 ""
  | some req =>
    match server.snapshotRecoveryRequest req with
    | none => .httpError 500 "Failed creating response."
    | some resp => if encodeOk then .response resp else .httpError 500 ""

/-- `peerJoinHandler`: rejects a duplicate name with 208 and a full
cluster with 406 before submitting; otherwise submits the join command
via `server.Do`.  The second component reports the command submitted to
`server.Do` (`none` = `Do` was never called). -/
def peerJoinHandler (server : ServerModel)
    (body : Except String DefaultJoinCommand) :
    MemberHandlerOut × Option DefaultJoinCommand :=
  match body with
  | .error e => (.httpError 400 e, none)
  | .ok command =>
    if (server.peers.lookup command.Name).isSome then
      (.httpError 208 ("Already exist: " ++ command.Name), none)
    else if server.maxPeerCount ≤ server.peers.length then
      (.httpError 406 "Can't be joined", none)
    else
      match server.doJoin command with
      | .error e => (.httpError 500 e, some command)
      | .ok _ => (.done, some command)

/-- `peerRemoveHandler`: rejects an unknown peer name with 400 before
submitting; otherwise submits the leave command via `server.Do`. -/
def peerRemoveHandler (server : ServerModel)
    (body : Except String DefaultLeaveCommand) :
    MemberHandlerOut × Option DefaultLeaveCommand :=
  match body with
  | .error e => (.httpError 400 e, none)
  | .ok command =>
    if (server.peers.lookup command.Name).isNone then
      (.httpError 400 ("Invalid peer: " ++ command.Name), none)
    else
      match server.doLeave command with
      | .error e => (.httpError 500 e, some command)
      | .ok _ => (.done, some command)

/-! ## Example raftd server (`examples/raftd/server/server.go`)

Only the name-file logic of `server.New` is claimed about; the file
system is an association list from path to contents, and `rand.Int()` is
an explicit parameter. -/
/-- The lowercase hexadecimal digit alphabet used by `fmt`'s `%x`. -/
def hexAlphabet : List Char := "0123456789abcdef".data

def isHexChar (c : Char) : Bool := hexAlphabet.contains c

def hexDigitChar (k : Nat) : Char := hexAlphabet.getD k '0'

/-- Modelled from the Go standard library: the digit string of `%x`
formatting — lowercase hex, most significant digit first, `"0"` for 0. -/
def hexDigits (n : Nat) : List Char :=
  if n < 16 then [hexDigitChar n]
  else hexDigits (n / 16) ++ [hexDigitChar (n % 16)]
termination_by n
decreasing_by exact Nat.div_lt_self (by omega) (by omega)

/-- `fmt.Sprintf("%07x", n)`: the hex digits, left-padded with `'0'` to
a width of at least 7. -/
def sprintf07x (n : Nat) : List Char :=
  List.replicate (7 - (hexDigits n).length) '0' ++ hexDigits n

/-- The name `server.New` generates:
`fmt.Sprintf("%07x", rand.Int())[0:7]`. -/
def genName (rnd : Nat) : String :=
  String.mk ((sprintf07x rnd).take 7)

/-- The name-file logic of `server.New`: if `<path>/name` exists its
contents become the name and nothing is written; otherwise a fresh name
is generated from `rand.Int()` and written to `<path>/name`.  Returns
the server's name together with the file system after the call. -/
def ServerNew (fs : List (String × String)) (path : String) (rnd : Nat) :
    String × List (String × String) :=
  match fs.lookup (path ++ "/name") with
  | some b => (b, fs)
  | none =>
    let nm := genName rnd
    (nm, (path ++ "/name", nm) :: fs)

/-! ## Shared concrete examples -/
/-- Whether a handler output is a protocol-level response carrying the
given term — what C2 claims a decode failure produces. -/
def responseCarriesTerm {ρ : Type} (termOf : ρ → Nat) :
    RpcHandlerOut ρ → Nat → Bool
  | .response resp, t => termOf resp == t
  | .httpError _ _, _ => false

def exampleTransporter : HTTPTransporter :=
  ⟨false, "/raft", "/raft/appendEntries", "/raft/requestVote", "/raft/snapshot",
   "/raft/snapshotRecovery", "/raft/redirect", "/raft/join", "/raft/remove",
   ⟨false, 200⟩, ⟨false, 200⟩⟩

def exampleServer : ServerModel where
  name := "s1"
  term := 5
  leader := "s1"
  peers := []
  maxPeerCount := 8
  appendEntries := fun _ => none
  requestVote := fun _ => none
  requestSnapshot := fun _ => none
  snapshotRecoveryRequest := fun _ => none
  doJoin := fun _ => .ok ()
  doLeave := fun _ => .ok ()

/-- A server whose cluster is already at `MaxPeerCount`. -/
def fullServer : ServerModel :=
  { exampleServer with maxPeerCount := 0 }

/-- A server that knows the peer named `"n"`, and whose leader is `"n"`. -/
def peeredServer : ServerModel :=
  { exampleServer with
      leader := "n"
      peers := [("n", ⟨"n", "http://host:4001"⟩)] }

def exampleRVRRecs : List FieldRec :=
  [⟨1, .vint 7⟩, ⟨2, .vint 3⟩, ⟨3, .vint 2⟩, ⟨4, .blob [97]⟩, ⟨9, .vint 5⟩]

def exampleRVRmsg : RequestVoteRequest :=
  ⟨some 7, some 3, some 2, some [97], [72, 5]⟩

def examplePeerBytes : List Nat :=
  encRecs [⟨1, .blob [110]⟩, ⟨2, .blob [99]⟩]

def exampleSRRRecs : List FieldRec :=
  [⟨1, .blob [108]⟩, ⟨2, .vint 4⟩, ⟨3, .vint 2⟩, ⟨4, .blob examplePeerBytes⟩,
   ⟨5, .blob [120]⟩, ⟨7, .blob [1, 2]⟩]

def exampleSRRmsg : SnapshotRecoveryRequest :=
  ⟨some [108], some 4, some 2, [⟨some [110], some [99], []⟩], some [120],
   [58, 2, 1, 2]⟩

/-! ## Theorems -/

theorem encVarintFuel_irrel (f1 : Nat) : ∀ (f2 n : Nat), n < f1 → n < f2 →
    encVarintFuel f1 n = encVarintFuel f2 n := by
  induction f1 with
  | zero => intro f2 n h1; omega
  | succ f1 ih =>
    intro f2 n h1 h2
    cases f2 with
    | zero => omega
    | succ f2 =>
      simp only [encVarintFuel]
      by_cases h : n < 128
      · simp [h]
      · rw [if_neg h, if_neg h]
        rw [ih f2 (n / 128) (by omega) (by omega)]

/-- The recursive unfolding of `encVarint`. -/
theorem encVarint_eq (n : Nat) :
    encVarint n = if n < 128 then [n] else (n % 128 + 128) :: encVarint (n / 128) := by
  show encVarintFuel (n + 1) n = _
  simp only [encVarintFuel]
  by_cases h : n < 128
  · simp [h]
  · rw [if_neg h, if_neg h]
    show _ :: encVarintFuel n (n / 128) = _ :: encVarintFuel (n / 128 + 1) (n / 128)
    rw [encVarintFuel_irrel n (n / 128 + 1) (n / 128) (by omega) (by omega)]

theorem encVarint_ne_nil (n : Nat) : encVarint n ≠ [] := by
  rw [encVarint_eq]
  by_cases h : n < 128 <;> simp [h]

theorem decVarint_encVarint (n : Nat) (rest : List Nat) :
    decVarint (encVarint n ++ rest) = some (n, rest) := by
  induction n using Nat.strong_induction_on generalizing rest with
  | _ n ih =>
    rw [encVarint_eq]
    by_cases h : n < 128
    · simp [h, decVarint]
    · rw [if_neg h]
      simp only [List.cons_append, decVarint, List.append_eq]
      rw [if_neg (by omega : ¬ (n % 128 + 128 < 128))]
      rw [ih (n / 128) (Nat.div_lt_self (by omega) (by omega))]
      simp only [Option.some.injEq, Prod.mk.injEq]
      exact ⟨by omega, trivial⟩

theorem runRecs_step {σ : Type} (apply : FieldRec → σ → Option σ)
    (fuel : Nat) (r : FieldRec) (hr : r.wf) (bs : List Nat) (st : σ) :
    runRecs apply (fuel + 1) (encRec r ++ bs) st =
      match apply r st with
      | none => none
      | some st' => runRecs apply fuel bs st' := by
  obtain ⟨num, val⟩ := r
  have hnum : 0 < num := hr
  cases val with
  | vint n =>
    have hne : encRec ⟨num, .vint n⟩ ++ bs ≠ [] := by
      simp only [encRec, List.append_assoc, ne_eq, List.append_eq_nil]
      intro h
      exact encVarint_ne_nil _ h.1
    rw [runRecs]
    · simp only [encRec, FieldVal.wireType, List.append_assoc, decVarint_encVarint]
      have h1 : (num * 8 + 0) / 8 = num := by omega
      have h2 : (num * 8 + 0) % 8 = 0 := by omega
      rw [h2, h1]
      rw [if_neg (by omega : ¬ num = 0)]
      rw [if_pos rfl]
    · exact hne
  | blob b =>
    have hne : encRec ⟨num, .blob b⟩ ++ bs ≠ [] := by
      simp only [encRec, List.append_assoc, ne_eq, List.append_eq_nil]
      intro h
      exact encVarint_ne_nil _ h.1
    rw [runRecs]
    · simp only [encRec, FieldVal.wireType, List.append_assoc, decVarint_encVarint]
      have h1 : (num * 8 + 2) / 8 = num := by omega
      have h2 : (num * 8 + 2) % 8 = 2 := by omega
      rw [h2, h1]
      rw [if_neg (by omega : ¬ num = 0)]
      rw [if_neg (by omega : ¬ (2 : Nat) = 0)]
      rw [if_pos rfl]
      rw [if_pos (by simp : b.length ≤ (b ++ bs).length)]
      rw [List.take_left, List.drop_left]
    · exact hne

theorem runRecs_encRecs {σ : Type} (apply : FieldRec → σ → Option σ)
    (rs : List FieldRec) (hwf : ∀ r ∈ rs, r.wf) (fuel : Nat)
    (hfuel : rs.length ≤ fuel) (st : σ) :
    runRecs apply fuel (encRecs rs) st = foldRecs apply rs st := by
  induction rs generalizing fuel st with
  | nil =>
    cases fuel <;> simp [encRecs, runRecs, foldRecs]
  | cons r rs ih =>
    obtain ⟨fuel, rfl⟩ : ∃ f, fuel = f + 1 := by
      cases fuel with
      | zero => simp at hfuel
      | succ f => exact ⟨f, rfl⟩
    have : encRecs (r :: rs) = encRec r ++ encRecs rs := by
      simp [encRecs]
    rw [this, runRecs_step apply fuel r (hwf r (by simp)) (encRecs rs) st]
    cases happ : apply r st with
    | none => simp [foldRecs, happ]
    | some st' =>
      simp only [foldRecs, happ]
      exact ih (fun r hr => hwf r (by simp [hr]))
        fuel (by simpa using Nat.le_of_succ_le_succ hfuel) st'

theorem encRecs_length_ge (rs : List FieldRec) :
    rs.length ≤ (encRecs rs).length := by
  induction rs with
  | nil => simp [encRecs]
  | cons r rs ih =>
    have he : encRecs (r :: rs) = encRec r ++ encRecs rs := by simp [encRecs]
    rw [he]
    have hr : 1 ≤ (encRec r).length := by
      simp only [encRec, List.length_append]
      cases h : encVarint (r.num * 8 + r.val.wireType) with
      | nil => exact absurd h (encVarint_ne_nil _)
      | cons a l => simp only [List.length_cons]; omega
    simp only [List.length_append, List.length_cons]
    omega

theorem encRecs_cons (r : FieldRec) (rs : List FieldRec) :
    encRecs (r :: rs) = encRec r ++ encRecs rs := by
  simp [encRecs]

/-- Generic invariance of a record fold under removal of unknown fields:
if `apply` treats every unknown record by appending its encoding to the
message's unknown-field buffer (leaving the known projection alone), and
treats every known record identically on states with equal known
projection (leaving the buffer alone), then folding a record list and
folding its known-only restriction yield the same known projection, with
the unknown buffer collecting exactly the unknown records' encodings. -/
theorem foldRecs_filter {σ κ : Type} (apply : FieldRec → σ → Option σ)
    (isKnown : FieldRec → Bool) (wfR : FieldRec → Prop)
    (proj : σ → κ) (getU : σ → List Nat)
    (hK : ∀ r, wfR r → isKnown r = true → ∀ st st2, proj st = proj st2 →
      ∃ u u2, apply r st = some u ∧ apply r st2 = some u2 ∧
        proj u = proj u2 ∧ getU u = getU st ∧ getU u2 = getU st2)
    (hU : ∀ r, wfR r → isKnown r = false → ∀ st,
      ∃ u, apply r st = some u ∧ proj u = proj st ∧
        getU u = getU st ++ encRec r) :
    ∀ rs : List FieldRec, (∀ r ∈ rs, wfR r) → ∀ st st2, proj st = proj st2 →
      ∃ u u2, foldRecs apply rs st = some u ∧
        foldRecs apply (rs.filter isKnown) st2 = some u2 ∧
        proj u = proj u2 ∧
        getU u = getU st ++ encRecs (rs.filter (fun r => ! isKnown r)) ∧
        getU u2 = getU st2 := by
  intro rs
  induction rs with
  | nil =>
    intro _ st st2 hp
    exact ⟨st, st2, rfl, rfl, hp, by simp [encRecs], rfl⟩
  | cons r rs ih =>
    intro hwf st st2 hp
    by_cases hk : isKnown r = true
    · obtain ⟨u, u2, ha, ha2, hpu, hgu, hgu2⟩ :=
        hK r (hwf r (by simp)) hk st st2 hp
      obtain ⟨w, w2, hf, hf2, hpw, hgw, hgw2⟩ :=
        ih (fun x hx => hwf x (by simp [hx])) u u2 hpu
      refine ⟨w, w2, ?_, ?_, hpw, ?_, ?_⟩
      · simp [foldRecs, ha, hf]
      · simp [List.filter_cons, hk, foldRecs, ha2, hf2]
      · rw [hgw, hgu]
        have : (r :: rs).filter (fun r => ! isKnown r) =
            rs.filter (fun r => ! isKnown r) := by
          simp [List.filter_cons, hk]
        rw [this]
      · rw [hgw2, hgu2]
    · have hk' : isKnown r = false := by
        cases h : isKnown r with
        | true => exact absurd h hk
        | false => rfl
      obtain ⟨u, ha, hpu, hgu⟩ := hU r (hwf r (by simp)) hk' st
      obtain ⟨w, w2, hf, hf2, hpw, hgw, hgw2⟩ :=
        ih (fun x hx => hwf x (by simp [hx])) u st2 (hpu.trans hp)
      refine ⟨w, w2, ?_, ?_, hpw, ?_, ?_⟩
      · simp [foldRecs, ha, hf]
      · have : (r :: rs).filter isKnown = rs.filter isKnown := by
          simp [List.filter_cons, hk']
        rw [this]; exact hf2
      · rw [hgw, hgu]
        have : (r :: rs).filter (fun r => ! isKnown r) =
            r :: rs.filter (fun r => ! isKnown r) := by
          simp [List.filter_cons, hk']
        rw [this, encRecs_cons, List.append_assoc]
      · rw [hgw2]

theorem rvr_applyField_known (r : FieldRec)
    (hw : RequestVoteRequest.recWf r)
    (hk : RequestVoteRequest.knownField r = true) :
    ∀ st st2, RequestVoteRequest.proj st = RequestVoteRequest.proj st2 →
      ∃ u u2, RequestVoteRequest.applyField r st = some u ∧
        RequestVoteRequest.applyField r st2 = some u2 ∧
        RequestVoteRequest.proj u = RequestVoteRequest.proj u2 ∧
        u.XXX_unrecognized = st.XXX_unrecognized ∧
        u2.XXX_unrecognized = st2.XXX_unrecognized := by
  intro st st2 hp
  simp only [RequestVoteRequest.knownField, Bool.or_eq_true, beq_iff_eq] at hk
  simp only [RequestVoteRequest.proj, Prod.mk.injEq] at hp
  obtain ⟨e1, e2, e3, e4⟩ := hp
  rcases hk with ((h | h) | h) | h
  · have hv := hw.2.1 (Or.inl h)
    cases hval : r.val with
    | blob b => rw [hval] at hv; simp [FieldVal.isVint] at hv
    | vint v =>
      refine ⟨{ st with Term := some v }, { st2 with Term := some v },
        ?_, ?_, ?_, rfl, rfl⟩
      · simp [RequestVoteRequest.applyField, h, hval]
      · simp [RequestVoteRequest.applyField, h, hval]
      · simp [RequestVoteRequest.proj, e2, e3, e4]
  · have hv := hw.2.1 (Or.inr (Or.inl h))
    cases hval : r.val with
    | blob b => rw [hval] at hv; simp [FieldVal.isVint] at hv
    | vint v =>
      refine ⟨{ st with LastLogIndex := some v }, { st2 with LastLogIndex := some v },
        ?_, ?_, ?_, rfl, rfl⟩
      · simp [RequestVoteRequest.applyField, h, hval]
      · simp [RequestVoteRequest.applyField, h, hval]
      · simp [RequestVoteRequest.proj, e1, e3, e4]
  · have hv := hw.2.1 (Or.inr (Or.inr h))
    cases hval : r.val with
    | blob b => rw [hval] at hv; simp [FieldVal.isVint] at hv
    | vint v =>
      refine ⟨{ st with LastLogTerm := some v }, { st2 with LastLogTerm := some v },
        ?_, ?_, ?_, rfl, rfl⟩
      · simp [RequestVoteRequest.applyField, h, hval]
      · simp [RequestVoteRequest.applyField, h, hval]
      · simp [RequestVoteRequest.proj, e1, e2, e4]
  · have hv := hw.2.2 h
    cases hval : r.val with
    | vint v => rw [hval] at hv; simp [FieldVal.isBlob] at hv
    | blob b =>
      refine ⟨{ st with CandidateName := some b }, { st2 with CandidateName := some b },
        ?_, ?_, ?_, rfl, rfl⟩
      · simp [RequestVoteRequest.applyField, h, hval]
      · simp [RequestVoteRequest.applyField, h, hval]
      · simp [RequestVoteRequest.proj, e1, e2, e3]

theorem rvr_applyField_unknown (r : FieldRec)
    (hk : RequestVoteRequest.knownField r = false) :
    ∀ st, ∃ u, RequestVoteRequest.applyField r st = some u ∧
      RequestVoteRequest.proj u = RequestVoteRequest.proj st ∧
      u.XXX_unrecognized = st.XXX_unrecognized ++ encRec r := by
  intro st
  simp only [RequestVoteRequest.knownField, Bool.or_eq_false_iff,
    beq_eq_false_iff_ne, ne_eq] at hk
  obtain ⟨⟨⟨h1, h2⟩, h3⟩, h4⟩ := hk
  refine ⟨{ st with XXX_unrecognized := st.XXX_unrecognized ++ encRec r },
    ?_, rfl, rfl⟩
  simp [RequestVoteRequest.applyField, h1, h2, h3, h4]

theorem rvr_Decode_filter_unknown (rs : List FieldRec)
    (hwf : ∀ r ∈ rs, RequestVoteRequest.recWf r) :
    ∃ m m', RequestVoteRequest.Decode (encRecs rs) = some m ∧
      RequestVoteRequest.Decode
        (encRecs (rs.filter RequestVoteRequest.knownField)) = some m' ∧
      m.Term = m'.Term ∧ m.LastLogIndex = m'.LastLogIndex ∧
      m.LastLogTerm = m'.LastLogTerm ∧ m.CandidateName = m'.CandidateName ∧
      m.XXX_unrecognized =
        encRecs (rs.filter (fun r => ! RequestVoteRequest.knownField r)) ∧
      m'.XXX_unrecognized = [] := by
  obtain ⟨u, u2, hf, hf2, hpw, hgw, hgw2⟩ :=
    foldRecs_filter RequestVoteRequest.applyField
      RequestVoteRequest.knownField RequestVoteRequest.recWf
      RequestVoteRequest.proj (fun m => m.XXX_unrecognized)
      (fun r hw hk => rvr_applyField_known r hw hk)
      (fun r _ hk => rvr_applyField_unknown r hk)
      rs hwf RequestVoteRequest.zero RequestVoteRequest.zero rfl
  simp only [RequestVoteRequest.proj, Prod.mk.injEq] at hpw
  obtain ⟨p1, p2, p3, p4⟩ := hpw
  refine ⟨u, u2, ?_, ?_, p1, p2, p3, p4, ?_, ?_⟩
  · rw [RequestVoteRequest.Decode,
      runRecs_encRecs _ rs (fun r hr => (hwf r hr).1) _ (encRecs_length_ge rs)]
    exact hf
  · rw [RequestVoteRequest.Decode,
      runRecs_encRecs _ _ (fun r hr => (hwf r (List.mem_of_mem_filter hr)).1)
        _ (encRecs_length_ge _)]
    exact hf2
  · simpa using hgw
  · simpa using hgw2

theorem srr_applyField_known (r : FieldRec)
    (hw : SnapshotRecoveryRequest.recWf r)
    (hk : SnapshotRecoveryRequest.knownField r = true) :
    ∀ st st2, SnapshotRecoveryRequest.proj st = SnapshotRecoveryRequest.proj st2 →
      ∃ u u2, SnapshotRecoveryRequest.applyField r st = some u ∧
        SnapshotRecoveryRequest.applyField r st2 = some u2 ∧
        SnapshotRecoveryRequest.proj u = SnapshotRecoveryRequest.proj u2 ∧
        u.XXX_unrecognized = st.XXX_unrecognized ∧
        u2.XXX_unrecognized = st2.XXX_unrecognized := by
  intro st st2 hp
  simp only [SnapshotRecoveryRequest.knownField, Bool.or_eq_true, beq_iff_eq] at hk
  simp only [SnapshotRecoveryRequest.proj, Prod.mk.injEq] at hp
  obtain ⟨e1, e2, e3, e4, e5⟩ := hp
  rcases hk with (((h | h) | h) | h) | h
  · have hv := hw.2.2.1 (Or.inl h)
    cases hval : r.val with
    | vint v => rw [hval] at hv; simp [FieldVal.isBlob] at hv
    | blob b =>
      refine ⟨{ st with LeaderName := some b }, { st2 with LeaderName := some b },
        ?_, ?_, ?_, rfl, rfl⟩
      · simp [SnapshotRecoveryRequest.applyField, h, hval]
      · simp [SnapshotRecoveryRequest.applyField, h, hval]
      · simp [SnapshotRecoveryRequest.proj, e2, e3, e4, e5]
  · have hv := hw.2.1 (Or.inl h)
    cases hval : r.val with
    | blob b => rw [hval] at hv; simp [FieldVal.isVint] at hv
    | vint v =>
      refine ⟨{ st with LastIndex := some v }, { st2 with LastIndex := some v },
        ?_, ?_, ?_, rfl, rfl⟩
      · simp [SnapshotRecoveryRequest.applyField, h, hval]
      · simp [SnapshotRecoveryRequest.applyField, h, hval]
      · simp [SnapshotRecoveryRequest.proj, e1, e3, e4, e5]
  · have hv := hw.2.1 (Or.inr h)
    cases hval : r.val with
    | blob b => rw [hval] at hv; simp [FieldVal.isVint] at hv
    | vint v =>
      refine ⟨{ st with LastTerm := some v }, { st2 with LastTerm := some v },
        ?_, ?_, ?_, rfl, rfl⟩
      · simp [SnapshotRecoveryRequest.applyField, h, hval]
      · simp [SnapshotRecoveryRequest.applyField, h, hval]
      · simp [SnapshotRecoveryRequest.proj, e1, e2, e4, e5]
  · have hv := hw.2.2.2 h
    cases hval : r.val with
    | vint v => rw [hval] at hv; simp at hv
    | blob b =>
      rw [hval] at hv
      simp only [Option.isSome_iff_exists] at hv
      obtain ⟨p, hpd⟩ := hv
      refine ⟨{ st with Peers := st.Peers ++ [p] },
        { st2 with Peers := st2.Peers ++ [p] }, ?_, ?_, ?_, rfl, rfl⟩
      · simp [SnapshotRecoveryRequest.applyField, h, hval, hpd]
      · simp [SnapshotRecoveryRequest.applyField, h, hval, hpd]
      · simp [SnapshotRecoveryRequest.proj, e1, e2, e3, e4, e5]
  · have hv := hw.2.2.1 (Or.inr h)
    cases hval : r.val with
    | vint v => rw [hval] at hv; simp [FieldVal.isBlob] at hv
    | blob b =>
      refine ⟨{ st with State := some b }, { st2 with State := some b },
        ?_, ?_, ?_, rfl, rfl⟩
      · simp [SnapshotRecoveryRequest.applyField, h, hval]
      · simp [SnapshotRecoveryRequest.applyField, h, hval]
      · simp [SnapshotRecoveryRequest.proj, e1, e2, e3, e4]

theorem srr_applyField_unknown (r : FieldRec)
    (hk : SnapshotRecoveryRequest.knownField r = false) :
    ∀ st, ∃ u, SnapshotRecoveryRequest.applyField r st = some u ∧
      SnapshotRecoveryRequest.proj u = SnapshotRecoveryRequest.proj st ∧
      u.XXX_unrecognized = st.XXX_unrecognized ++ encRec r := by
  intro st
  simp only [SnapshotRecoveryRequest.knownField, Bool.or_eq_false_iff,
    beq_eq_false_iff_ne, ne_eq] at hk
  obtain ⟨⟨⟨⟨h1, h2⟩, h3⟩, h4⟩, h5⟩ := hk
  refine ⟨{ st with XXX_unrecognized := st.XXX_unrecognized ++ encRec r },
    ?_, rfl, rfl⟩
  simp [SnapshotRecoveryRequest.applyField, h1, h2, h3, h4, h5]

theorem srr_Decode_filter_unknown (rs : List FieldRec)
    (hwf : ∀ r ∈ rs, SnapshotRecoveryRequest.recWf r) :
    ∃ m m', SnapshotRecoveryRequest.Decode (encRecs rs) = some m ∧
      SnapshotRecoveryRequest.Decode
        (encRecs (rs.filter SnapshotRecoveryRequest.knownField)) = some m' ∧
      m.LeaderName = m'.LeaderName ∧ m.LastIndex = m'.LastIndex ∧
      m.LastTerm = m'.LastTerm ∧ m.Peers = m'.Peers ∧ m.State = m'.State ∧
      m.XXX_unrecognized =
        encRecs (rs.filter (fun r => ! SnapshotRecoveryRequest.knownField r)) ∧
      m'.XXX_unrecognized = [] := by
  obtain ⟨u, u2, hf, hf2, hpw, hgw, hgw2⟩ :=
    foldRecs_filter SnapshotRecoveryRequest.applyField
      SnapshotRecoveryRequest.knownField SnapshotRecoveryRequest.recWf
      SnapshotRecoveryRequest.proj (fun m => m.XXX_unrecognized)
      (fun r hw hk => srr_applyField_known r hw hk)
      (fun r _ hk => srr_applyField_unknown r hk)
      rs hwf SnapshotRecoveryRequest.zero SnapshotRecoveryRequest.zero rfl
  simp only [SnapshotRecoveryRequest.proj, Prod.mk.injEq] at hpw
  obtain ⟨p1, p2, p3, p4, p5⟩ := hpw
  refine ⟨u, u2, ?_, ?_, p1, p2, p3, p4, p5, ?_, ?_⟩
  · rw [SnapshotRecoveryRequest.Decode,
      runRecs_encRecs _ rs (fun r hr => (hwf r hr).1) _ (encRecs_length_ge rs)]
    exact hf
  · rw [SnapshotRecoveryRequest.Decode,
      runRecs_encRecs _ _ (fun r hr => (hwf r (List.mem_of_mem_filter hr)).1)
        _ (encRecs_length_ge _)]
    exact hf2
  · simpa using hgw
  · simpa using hgw2

theorem hexDigitChar_hex (k : Nat) : isHexChar (hexDigitChar k) = true := by
  unfold isHexChar hexDigitChar
  by_cases h : k < 16
  · interval_cases k <;> decide
  · rw [List.getD_eq_default]
    · decide
    · have : hexAlphabet.length = 16 := by decide
      omega

theorem hexDigits_hex (n : Nat) : ∀ c ∈ hexDigits n, isHexChar c = true := by
  induction n using Nat.strong_induction_on with
  | _ n ih =>
    rw [hexDigits]
    by_cases h : n < 16
    · rw [if_pos h]
      intro c hc
      simp only [List.mem_singleton] at hc
      subst hc
      exact hexDigitChar_hex n
    · rw [if_neg h]
      intro c hc
      rcases List.mem_append.mp hc with hc | hc
      · exact ih (n / 16) (Nat.div_lt_self (by omega) (by omega)) c hc
      · simp only [List.mem_singleton] at hc
        subst hc
        exact hexDigitChar_hex (n % 16)

theorem sprintf07x_length (n : Nat) : 7 ≤ (sprintf07x n).length := by
  simp only [sprintf07x, List.length_append, List.length_replicate]
  omega

theorem sprintf07x_hex (n : Nat) : ∀ c ∈ sprintf07x n, isHexChar c = true := by
  intro c hc
  rcases List.mem_append.mp hc with hc | hc
  · rw [List.eq_of_mem_replicate hc]
    decide
  · exact hexDigits_hex n c hc

theorem genName_length (rnd : Nat) : (genName rnd).length = 7 := by
  simp only [genName, String.length_mk, List.length_take]
  have := sprintf07x_length rnd
  omega

theorem genName_hex (rnd : Nat) : ∀ c ∈ (genName rnd).data, isHexChar c = true := by
  intro c hc
  simp only [genName] at hc
  exact sprintf07x_hex rnd c (List.mem_of_mem_take hc)

/-! ## Claim theorems -/
/-- Characterization of the common control flow shared by the four
outbound sends, stated against the if-chain the code compiles to. -/
theorem sendChain_characterize {ρ : Type} (env : RpcEnv ρ) (s : SendResult ρ)
    (hs : s = (if env.encodeOk = false then SendResult.returned none
      else if env.postRespPresent = false ∨ env.postErr.isSome then
        SendResult.returned none
      else match env.decErr with
        | some DecErr.other => SendResult.returned none
        | _ => SendResult.returned (some env.decoded))) :
    ∃ r, s = .returned r ∧ (r = none ↔ sendFails env) ∧
      ∀ resp, r = some resp → resp = env.decoded := by
  subst hs
  by_cases he : env.encodeOk = false
  · rw [if_pos he]
    exact ⟨none, rfl, ⟨fun _ => Or.inl he, fun _ => rfl⟩, fun resp h => by cases h⟩
  · rw [if_neg he]
    by_cases hp : env.postRespPresent = false ∨ env.postErr.isSome
    · rw [if_pos hp]
      refine ⟨none, rfl, ⟨fun _ => ?_, fun _ => rfl⟩, fun resp h => by cases h⟩
      rcases hp with h | h
      · exact Or.inr (Or.inl h)
      · exact Or.inr (Or.inr (Or.inl h))
    · rw [if_neg hp]
      rw [not_or] at hp
      obtain ⟨hp1, hp2⟩ := hp
      cases hd : env.decErr with
      | none =>
        refine ⟨some env.decoded, rfl, ⟨(fun h => by cases h), fun hdis => ?_⟩,
          fun resp h => by injection h with h; exact h.symm⟩
        rcases hdis with h | h | h | h
        · exact absurd h he
        · exact absurd h hp1
        · exact absurd h hp2
        · rw [hd] at h; cases h
      | some e =>
        cases e with
        | eof =>
          refine ⟨some env.decoded, rfl, ⟨(fun h => by cases h), fun hdis => ?_⟩,
            fun resp h => by injection h with h; exact h.symm⟩
          rcases hdis with h | h | h | h
          · exact absurd h he
          · exact absurd h hp1
          · exact absurd h hp2
          · rw [hd] at h; simp at h
        | other =>
          exact ⟨none, rfl, ⟨fun _ => Or.inr (Or.inr (Or.inr hd)), fun _ => rfl⟩,
            fun resp h => by cases h⟩

/-- C1: every outbound RPC send (`SendAppendEntriesRequest`,
`SendVoteRequest`, `SendSnapshotRequest`, `SendSnapshotRecoveryRequest`)
returns either a decoded response or the nil unreachable sentinel with no
retry: nil exactly when encoding the request failed, the HTTP POST erred
or yielded no response, or decoding the body failed with an error other
than `io.EOF`; in every other case the decoded response is returned.
(Stated for a peer address that `url.Parse` accepts; C9 covers the
malformed-address panic of the three `joinPath`-based sends.) -/
theorem sends_return_decoded_or_unreachable (t : HTTPTransporter) (peer : Peer)
    (hurl : urlParseOk peer.ConnectionString = true) :
    (∀ env : RpcEnv AppendEntriesResponse,
      ∃ r, SendAppendEntriesRequest t peer env = .returned r ∧
        (r = none ↔ sendFails env) ∧
        ∀ resp, r = some resp → resp = env.decoded) ∧
    (∀ env : RpcEnv RequestVoteResponse,
      ∃ r, SendVoteRequest t peer env = .returned r ∧
        (r = none ↔ sendFails env) ∧
        ∀ resp, r = some resp → resp = env.decoded) ∧
    (∀ env : RpcEnv SnapshotResponse,
      ∃ r, SendSnapshotRequest t peer env = .returned r ∧
        (r = none ↔ sendFails env) ∧
        ∀ resp, r = some resp → resp = env.decoded) ∧
    (∀ env : RpcEnv SnapshotRecoveryResponse,
      ∃ r, SendSnapshotRecoveryRequest t peer env = .returned r ∧
        (r = none ↔ sendFails env) ∧
        ∀ resp, r = some resp → resp = env.decoded) := by
  refine ⟨fun env => sendChain_characterize env _ ?_,
          fun env => sendChain_characterize env _ ?_,
          fun env => sendChain_characterize env _ ?_,
          fun env => sendChain_characterize env _ ?_⟩
  · simp [SendAppendEntriesRequest, joinPath, hurl]
  · simp [SendVoteRequest]
  · simp [SendSnapshotRequest, joinPath, hurl]
  · simp [SendSnapshotRecoveryRequest, joinPath, hurl]

theorem sends_return_decoded_or_unreachable_witness :
    SendAppendEntriesRequest exampleTransporter ⟨"n", "http://host:4001"⟩
      ⟨true, true, none, ⟨1, 2, 3, true⟩, none⟩ =
      .returned (some ⟨1, 2, 3, true⟩) ∧
    SendVoteRequest exampleTransporter ⟨"n", "http://host:4001"⟩
      ⟨false, true, none, ⟨1, true⟩, none⟩ = .returned none := by
  have h := sends_return_decoded_or_unreachable exampleTransporter
    ⟨"n", "http://host:4001"⟩ (by decide)
  obtain ⟨r, hr, hiff, hsome⟩ := h.1 ⟨true, true, none, ⟨1, 2, 3, true⟩, none⟩
  obtain ⟨r2, hr2, hiff2, _⟩ := h.2.1 ⟨false, true, none, ⟨1, true⟩, none⟩
  constructor
  · cases r with
    | none => exact absurd (hiff.mp rfl) (by decide)
    | some resp => rw [hsome resp rfl] at hr; exact hr
  · rw [hiff2.mpr (Or.inl rfl)] at hr2
    exact hr2

/-- C9: there is a peer connection string that `url.Parse` rejects (one
containing a control character) on which `joinPath` panics, so the three
outbound sends that call `joinPath` panic rather than return the nil
unreachable sentinel. -/
theorem joinPath_panics_on_malformed_address :
    ∃ cs : String, urlParseOk cs = false ∧
      joinPath cs "/raft/appendEntries" = .error "parse error" ∧
      SendAppendEntriesRequest exampleTransporter ⟨"n", cs⟩
        ⟨true, true, none, ⟨0, 0, 0, false⟩, none⟩ = .panicked ∧
      SendSnapshotRequest exampleTransporter ⟨"n", cs⟩
        ⟨true, true, none, ⟨false⟩, none⟩ = .panicked ∧
      SendSnapshotRecoveryRequest exampleTransporter ⟨"n", cs⟩
        ⟨true, true, none, ⟨0, false, 0⟩, none⟩ = .panicked := by
  refine ⟨"http://a\x00b", by decide, ?_, by decide, by decide, by decide⟩
  rfl

/-- C5: for every path fragment accepted by `url.Parse` and every
timeout, `NewHTTPTransporter` succeeds and installs the given timeout as
the `ResponseHeaderTimeout` of the `http.Transport` that the outbound
sends' client uses. -/
theorem NewHTTPTransporter_installs_timeout (p : String) (timeout : Nat)
    (h : urlParseOk p = true) :
    ∃ t, NewHTTPTransporter p timeout = .ok t ∧
      t.Transport.ResponseHeaderTimeout = timeout ∧
      t.httpClientTransport = t.Transport := by
  refine ⟨{ DisableKeepAlives := false
            prefixPath := p
            appendEntriesPath := p ++ "/appendEntries"
            requestVotePath := p ++ "/requestVote"
            snapshotPath := p ++ "/snapshot"
            snapshotRecoveryPath := p ++ "/snapshotRecovery"
            redirectPath := p ++ "/redirect"
            peerJoinPath := p ++ "/join"
            peerRemovePath := p ++ "/remove"
            httpClientTransport := ⟨false, timeout⟩
            Transport := ⟨false, timeout⟩ }, ?_, rfl, rfl⟩
  unfold NewHTTPTransporter
  simp only [joinPath, h, if_true]
  rfl

theorem NewHTTPTransporter_installs_timeout_witness :
    urlParseOk "/raft" = true ∧
    (NewHTTPTransporter "/raft" 200).toOption.map
      (fun t => t.Transport.ResponseHeaderTimeout) = some 200 := by
  obtain ⟨t, ht, h1, _⟩ := NewHTTPTransporter_installs_timeout "/raft" 200 (by decide)
  refine ⟨by decide, ?_⟩
  rw [ht]
  simp [Except.toOption, h1]

/-- C2 as stated fails on the code: at a concrete server with term 5, the
appendEntries handler answers a body that fails to decode with a bare
HTTP 400 and an empty message — no protocol-level failure response
carrying the local term is produced. -/
theorem decode_error_carries_no_term :
    appendEntriesHandler exampleServer none true = .httpError 400 "" ∧
    responseCarriesTerm (fun r => r.Term)
      (appendEntriesHandler exampleServer none true) exampleServer.term = false :=
  ⟨rfl, rfl⟩

/-- C2 (amended): every incoming RPC handler answers a body that fails to
decode with HTTP 400 Bad Request and an empty message, for every server
state; no protocol-level response — and hence no term — is sent back. -/
theorem handlers_decode_error_http400 (server : ServerModel) (encodeOk : Bool) :
    appendEntriesHandler server none encodeOk = .httpError 400 "" ∧
    requestVoteHandler server none encodeOk = .httpError 400 "" ∧
    snapshotHandler server none encodeOk = .httpError 400 "" ∧
    snapshotRecoveryHandler server none encodeOk = .httpError 400 "" ∧
    responseCarriesTerm (fun r => r.Term)
      (appendEntriesHandler server none encodeOk) server.term = false ∧
    responseCarriesTerm (fun r => r.Term)
      (requestVoteHandler server none encodeOk) server.term = false ∧
    responseCarriesTerm (fun r => r.Term)
      (snapshotRecoveryHandler server none encodeOk) server.term = false :=
  ⟨rfl, rfl, rfl, rfl, rfl, rfl, rfl⟩

/-- C3: a join whose name is already a peer, or arriving when the cluster
is at `MaxPeerCount`, is rejected with an HTTP error before any log
submission (`server.Do` is never called); otherwise the join command is
submitted via `server.Do`. -/
theorem peerJoinHandler_pre_log (server : ServerModel) (cmd : DefaultJoinCommand) :
    (((server.peers.lookup cmd.Name).isSome = true ∨
        server.maxPeerCount ≤ server.peers.length) →
      (peerJoinHandler server (.ok cmd)).2 = none ∧
      ∃ c m, (peerJoinHandler server (.ok cmd)).1 = .httpError c m) ∧
    ((server.peers.lookup cmd.Name).isSome = false →
      server.peers.length < server.maxPeerCount →
      (peerJoinHandler server (.ok cmd)).2 = some cmd) := by
  constructor
  · intro h
    simp only [peerJoinHandler]
    by_cases h1 : (server.peers.lookup cmd.Name).isSome = true
    · rw [if_pos h1]
      exact ⟨rfl, 208, "Already exist: " ++ cmd.Name, rfl⟩
    · have h2 : server.maxPeerCount ≤ server.peers.length := by
        rcases h with h | h
        · exact absurd h h1
        · exact h
      rw [if_neg h1, if_pos h2]
      exact ⟨rfl, 406, "Can't be joined", rfl⟩
  · intro h1 h2
    simp only [peerJoinHandler]
    rw [if_neg (by simp [h1]), if_neg (by omega)]
    cases server.doJoin cmd <;> rfl

theorem peerJoinHandler_pre_log_witness :
    (peerJoinHandler exampleServer (.ok ⟨"n", "c"⟩)).2 = some ⟨"n", "c"⟩ ∧
    (peerJoinHandler fullServer (.ok ⟨"n", "c"⟩)).2 = none :=
  ⟨(peerJoinHandler_pre_log exampleServer ⟨"n", "c"⟩).2 (by decide) (by decide),
   ((peerJoinHandler_pre_log fullServer ⟨"n", "c"⟩).1 (Or.inr (by decide))).1⟩

/-- C4: a remove whose name is not a key of the peer map is rejected with
an unknown-peer error and `server.Do` is never called; when the name is
present, the leave command for that name is submitted via `server.Do`. -/
theorem peerRemoveHandler_unknown_peer (server : ServerModel)
    (cmd : DefaultLeaveCommand) :
    (server.peers.lookup cmd.Name = none →
      (peerRemoveHandler server (.ok cmd)).1 =
        .httpError 400 ("Invalid peer: " ++ cmd.Name) ∧
      (peerRemoveHandler server (.ok cmd)).2 = none) ∧
    (∀ p, server.peers.lookup cmd.Name = some p →
      (peerRemoveHandler server (.ok cmd)).2 = some cmd) := by
  constructor
  · intro h
    simp only [peerRemoveHandler]
    rw [if_pos (by simp [h])]
    exact ⟨rfl, rfl⟩
  · intro p h
    simp only [peerRemoveHandler]
    rw [if_neg (by simp [h])]
    cases server.doLeave cmd <;> rfl

theorem peerRemoveHandler_unknown_peer_witness :
    (peerRemoveHandler exampleServer (.ok ⟨"n"⟩)).2 = none ∧
    (peerRemoveHandler peeredServer (.ok ⟨"n"⟩)).2 = some ⟨"n"⟩ :=
  ⟨((peerRemoveHandler_unknown_peer exampleServer ⟨"n"⟩).1 rfl).2,
   (peerRemoveHandler_unknown_peer peeredServer ⟨"n"⟩).2
     ⟨"n", "http://host:4001"⟩ (by decide)⟩

/-- C6: decoding bytes that contain field records outside the message's
schema succeeds; the unknown fields are retained opaquely in
`XXX_unrecognized` and every known field decodes to the same value as if
the unknown fields were absent — for `RequestVoteRequest` and for
`SnapshotRecoveryRequest`. -/
theorem decode_ignores_unknown_fields :
    (∀ rs : List FieldRec, (∀ r ∈ rs, RequestVoteRequest.recWf r) →
      ∃ m m', RequestVoteRequest.Decode (encRecs rs) = some m ∧
        RequestVoteRequest.Decode
          (encRecs (rs.filter RequestVoteRequest.knownField)) = some m' ∧
        m.Term = m'.Term ∧ m.LastLogIndex = m'.LastLogIndex ∧
        m.LastLogTerm = m'.LastLogTerm ∧ m.CandidateName = m'.CandidateName ∧
        m.XXX_unrecognized =
          encRecs (rs.filter (fun r => ! RequestVoteRequest.knownField r)) ∧
        m'.XXX_unrecognized = []) ∧
    (∀ rs : List FieldRec, (∀ r ∈ rs, SnapshotRecoveryRequest.recWf r) →
      ∃ m m', SnapshotRecoveryRequest.Decode (encRecs rs) = some m ∧
        SnapshotRecoveryRequest.Decode
          (encRecs (rs.filter SnapshotRecoveryRequest.knownField)) = some m' ∧
        m.LeaderName = m'.LeaderName ∧ m.LastIndex = m'.LastIndex ∧
        m.LastTerm = m'.LastTerm ∧ m.Peers = m'.Peers ∧ m.State = m'.State ∧
        m.XXX_unrecognized =
          encRecs (rs.filter (fun r => ! SnapshotRecoveryRequest.knownField r)) ∧
        m'.XXX_unrecognized = []) :=
  ⟨rvr_Decode_filter_unknown,
   srr_Decode_filter_unknown⟩

theorem decode_ignores_unknown_fields_witness :
    RequestVoteRequest.Decode (encRecs exampleRVRRecs) = some exampleRVRmsg ∧
    SnapshotRecoveryRequest.Decode (encRecs exampleSRRRecs) = some exampleSRRmsg := by
  obtain ⟨m, m', hm, hm', e1, e2, e3, e4, hx, hx'⟩ :=
    decode_ignores_unknown_fields.1 exampleRVRRecs (by decide)
  obtain ⟨w, w', hw, hw', f1, f2, f3, f4, f5, gx, gx'⟩ :=
    decode_ignores_unknown_fields.2 exampleSRRRecs (by decide)
  exact ⟨by decide, by decide⟩

/-- C7: the persisted name file is a stable identity: when it exists its
contents become the server's name unchanged; when it does not, a name of
at least 7 hexadecimal characters is generated and written once, so
constructing again with the same path yields the same name. -/
theorem serverNew_stable_name (fs : List (String × String)) (path : String)
    (rnd : Nat) :
    (∀ b, fs.lookup (path ++ "/name") = some b → ServerNew fs path rnd = (b, fs)) ∧
    (fs.lookup (path ++ "/name") = none →
      (ServerNew fs path rnd).1 = genName rnd ∧
      7 ≤ (ServerNew fs path rnd).1.length ∧
      (∀ c ∈ (ServerNew fs path rnd).1.data, isHexChar c = true) ∧
      (ServerNew fs path rnd).2 = (path ++ "/name", genName rnd) :: fs) ∧
    (∀ rnd', (ServerNew (ServerNew fs path rnd).2 path rnd').1 =
      (ServerNew fs path rnd).1) := by
  refine ⟨?_, ?_, ?_⟩
  · intro b hb
    simp [ServerNew, hb]
  · intro hn
    have h1 : ServerNew fs path rnd =
        (genName rnd, (path ++ "/name", genName rnd) :: fs) := by
      simp [ServerNew, hn]
    rw [h1]
    exact ⟨rfl, by simp [genName_length], genName_hex rnd, rfl⟩
  · intro rnd'
    cases hb : fs.lookup (path ++ "/name") with
    | some b => simp [ServerNew, hb]
    | none => simp [ServerNew, hb, List.lookup]

theorem serverNew_stable_name_witness :
    List.lookup ("srv" ++ "/name") ([] : List (String × String)) = none ∧
    7 ≤ (ServerNew [] "srv" 0).1.length ∧
    (ServerNew (ServerNew [] "srv" 0).2 "srv" 99).1 = (ServerNew [] "srv" 0).1 := by
  refine ⟨rfl, ?_, ?_⟩
  · exact ((serverNew_stable_name [] "srv" 0).2.1 rfl).2.1
  · exact (serverNew_stable_name [] "srv" 0).2.2 99

/-- C8: every getter of the generated message types is total on nil: on a
nil receiver or a nil field it returns the zero value (0 for integers,
the empty string for strings), and otherwise the stored value; no getter
dereferences a nil pointer. -/
theorem getters_total_on_nil :
    (RequestVoteRequest.GetTerm none = 0 ∧
      (∀ m, m.Term = none → RequestVoteRequest.GetTerm (some m) = 0) ∧
      (∀ m v, m.Term = some v → RequestVoteRequest.GetTerm (some m) = v)) ∧
    (RequestVoteRequest.GetLastLogIndex none = 0 ∧
      (∀ m, m.LastLogIndex = none → RequestVoteRequest.GetLastLogIndex (some m) = 0) ∧
      (∀ m v, m.LastLogIndex = some v →
        RequestVoteRequest.GetLastLogIndex (some m) = v)) ∧
    (RequestVoteRequest.GetLastLogTerm none = 0 ∧
      (∀ m, m.LastLogTerm = none → RequestVoteRequest.GetLastLogTerm (some m) = 0) ∧
      (∀ m v, m.LastLogTerm = some v →
        RequestVoteRequest.GetLastLogTerm (some m) = v)) ∧
    (RequestVoteRequest.GetCandidateName none = [] ∧
      (∀ m, m.CandidateName = none →
        RequestVoteRequest.GetCandidateName (some m) = []) ∧
      (∀ m v, m.CandidateName = some v →
        RequestVoteRequest.GetCandidateName (some m) = v)) ∧
    (SnapshotRecoveryRequest.GetLeaderName none = [] ∧
      (∀ m, m.LeaderName = none →
        SnapshotRecoveryRequest.GetLeaderName (some m) = []) ∧
      (∀ m v, m.LeaderName = some v →
        SnapshotRecoveryRequest.GetLeaderName (some m) = v)) ∧
    (SnapshotRecoveryRequest.GetLastIndex none = 0 ∧
      (∀ m, m.LastIndex = none → SnapshotRecoveryRequest.GetLastIndex (some m) = 0) ∧
      (∀ m v, m.LastIndex = some v →
        SnapshotRecoveryRequest.GetLastIndex (some m) = v)) ∧
    (SnapshotRecoveryRequest_Peer.GetName none = [] ∧
      (∀ m, m.Name = none → SnapshotRecoveryRequest_Peer.GetName (some m) = []) ∧
      (∀ m v, m.Name = some v → SnapshotRecoveryRequest_Peer.GetName (some m) = v)) ∧
    (SnapshotRecoveryRequest_Peer.GetConnectionString none = [] ∧
      (∀ m, m.ConnectionString = none →
        SnapshotRecoveryRequest_Peer.GetConnectionString (some m) = []) ∧
      (∀ m v, m.ConnectionString = some v →
        SnapshotRecoveryRequest_Peer.GetConnectionString (some m) = v)) := by
  refine ⟨⟨rfl, ?_, ?_⟩, ⟨rfl, ?_, ?_⟩, ⟨rfl, ?_, ?_⟩, ⟨rfl, ?_, ?_⟩,
    ⟨rfl, ?_, ?_⟩, ⟨rfl, ?_, ?_⟩, ⟨rfl, ?_, ?_⟩, ⟨rfl, ?_, ?_⟩⟩
  · intro m h; simp [RequestVoteRequest.GetTerm, h]
  · intro m v h; simp [RequestVoteRequest.GetTerm, h]
  · intro m h; simp [RequestVoteRequest.GetLastLogIndex, h]
  · intro m v h; simp [RequestVoteRequest.GetLastLogIndex, h]
  · intro m h; simp [RequestVoteRequest.GetLastLogTerm, h]
  · intro m v h; simp [RequestVoteRequest.GetLastLogTerm, h]
  · intro m h; simp [RequestVoteRequest.GetCandidateName, h]
  · intro m v h; simp [RequestVoteRequest.GetCandidateName, h]
  · intro m h; simp [SnapshotRecoveryRequest.GetLeaderName, h]
  · intro m v h; simp [SnapshotRecoveryRequest.GetLeaderName, h]
  · intro m h; simp [SnapshotRecoveryRequest.GetLastIndex, h]
  · intro m v h; simp [SnapshotRecoveryRequest.GetLastIndex, h]
  · intro m h; simp [SnapshotRecoveryRequest_Peer.GetName, h]
  · intro m v h; simp [SnapshotRecoveryRequest_Peer.GetName, h]
  · intro m h; simp [SnapshotRecoveryRequest_Peer.GetConnectionString, h]
  · intro m v h; simp [SnapshotRecoveryRequest_Peer.GetConnectionString, h]

theorem getters_total_on_nil_witness :
    RequestVoteRequest.GetTerm (some ⟨some 42, none, none, none, []⟩) = 42 ∧
    SnapshotRecoveryRequest_Peer.GetName (some ⟨none, some [99], []⟩) = [] :=
  ⟨getters_total_on_nil.1.2.2 ⟨some 42, none, none, none, []⟩ 42 rfl,
   getters_total_on_nil.2.2.2.2.2.2.1.2.1 ⟨none, some [99], []⟩ rfl⟩

/-- C10: `Redirect` succeeds exactly when the current leader is in the
peer map and the POST to the leader's redirect path returns status 200;
when the leader is unknown no POST is attempted; and a failed
`json.Marshal` is silently ignored, the request going out with an empty
body. -/
theorem Redirect_error_characterization (t : HTTPTransporter)
    (server : ServerModel) (env : RedirectEnv) :
    ((Redirect t server env).err = none ↔
      (server.peers.lookup server.leader).isSome = true ∧
        env.postResult = Except.ok 200) ∧
    (server.peers.lookup server.leader = none →
      (Redirect t server env).posted = none) ∧
    (env.marshal = none → (server.peers.lookup server.leader).isSome = true →
      (Redirect t server env).posted = some []) := by
  cases hl : server.peers.lookup server.leader with
  | none =>
    refine ⟨?_, (fun _ => by simp [Redirect, hl]),
      (fun _ hs => absurd hs (by simp))⟩
    simp [Redirect, hl]
  | some p =>
    cases hpost : env.postResult with
    | error e =>
      refine ⟨?_, (fun h => absurd h (by simp)), (fun hm _ => ?_)⟩
      · simp [Redirect, hl, hpost]
      · simp [Redirect, hl, hpost, hm]
    | ok code =>
      by_cases hc : code = 200
      · subst hc
        refine ⟨?_, (fun h => absurd h (by simp)), (fun hm _ => ?_)⟩
        · simp [Redirect, hl, hpost]
        · simp [Redirect, hl, hpost, hm]
      · refine ⟨?_, (fun h => absurd h (by simp)), (fun hm _ => ?_)⟩
        · simp [Redirect, hl, hpost, hc]
        · simp [Redirect, hl, hpost, hm, hc]

theorem Redirect_error_characterization_witness :
    (Redirect exampleTransporter peeredServer ⟨none, .ok 200⟩).err = none ∧
    (Redirect exampleTransporter peeredServer ⟨none, .ok 200⟩).posted = some [] := by
  have h := Redirect_error_characterization exampleTransporter peeredServer
    ⟨none, .ok 200⟩
  exact ⟨h.1.mpr ⟨by decide, rfl⟩, h.2.2 rfl (by decide)⟩

end Raft
